import Mathlib

set_option maxRecDepth 10000

/-!
Shallow embedding of the CodeBoarding-MCP markdown-aggregation service
(src/utils/format.py, src/utils/read_repo.py, src/tools/*.py).

Python regular expressions are embedded as deterministic scanners over
List Char that follow the leftmost, non-overlapping semantics of re.sub,
re.findall and re.search for the concrete patterns of the source (each of
which backtracks deterministically, as argued pointwise in the comments).
Network access, the GitHub tree listing and the two tokenizers are
parameters of the embedding (the Env structure); a network call that would
raise in Python is modelled by the oracle returning none, and Python
exceptions are modelled with Except.

Character classes are modelled over their ASCII range; the inputs the
theorems below evaluate stay inside that range.
-/

-- ===== generic string/scanner primitives =====

/-- ASCII range of the regex class \s (Python). -/
def pyWs (c : Char) : Bool :=
  c = ' ' || c = '\t' || c = '\n' || c = '\r' || c = '\x0b' || c = '\x0c'

/-- ASCII range of the regex class \w (Python). -/
def isWordChar (c : Char) : Bool := c.isAlphanum || c = '_'

/-- Character class [A-Za-z0-9_.] of REF_PATTERN's first group. -/
def isRefNameChar (c : Char) : Bool := c.isAlphanum || c = '_' || c = '.'

/-- The backquote character. -/
def btChar : Char := '\x60'

/-- Boolean list-prefix test. -/
def leadsWith : List Char → List Char → Bool
  | [], _ => true
  | _ :: _, [] => false
  | p :: ps, c :: cs => p = c && leadsWith ps cs

/-- Boolean substring test (Python's in operator on strings). -/
def subStrB (needle : List Char) : List Char → Bool
  | [] => leadsWith needle []
  | c :: cs => leadsWith needle (c :: cs) || subStrB needle cs

/-- Substring test on String values. -/
def strContains (s pat : String) : Bool := subStrB pat.data s.data

/-- Models Python str.startswith. -/
def strStarts (s pat : String) : Bool := leadsWith pat.data s.data

/-- Models Python str.endswith. -/
def strEnds (s pat : String) : Bool := leadsWith pat.data.reverse s.data.reverse

/-- Consume an exact literal, returning the remainder. -/
def expects : List Char → List Char → Option (List Char)
  | [], l => some l
  | _ :: _, [] => none
  | p :: ps, c :: cs => if p = c then expects ps cs else none

/-- Case-insensitive literal consumption (for the re.IGNORECASE fence pattern). -/
def expectsCI : List Char → List Char → Option (List Char)
  | [], l => some l
  | _ :: _, [] => none
  | p :: ps, c :: cs => if p.toLower = c.toLower then expectsCI ps cs else none

/-- Greedy nonempty character-class run (a regex X+ whose follower is not in X). -/
def takeWhile1 (p : Char → Bool) (l : List Char) : Option (List Char × List Char) :=
  match l.takeWhile p with
  | [] => none
  | t => some (t, l.dropWhile p)

/-- Lazy (.*?) up to a stop parser: the stop parser is tried first at every
position, mirroring non-greedy matching. -/
def lazyFind (allowed : Char → Bool) (stop : List Char → Option (δ × List Char)) :
    List Char → Option (List Char × δ × List Char)
  | [] => (stop []).map (fun p => ([], p.1, p.2))
  | c :: cs =>
    match stop (c :: cs) with
    | some (d, r) => some ([], d, r)
    | none =>
      if allowed c then (lazyFind allowed stop cs).map (fun p => (c :: p.1, p.2.1, p.2.2))
      else none

/-- Lazy (.+?) up to a stop parser (at least one character consumed). -/
def lazyFind1 (allowed : Char → Bool) (stop : List Char → Option (δ × List Char))
    (l : List Char) : Option (List Char × δ × List Char) :=
  match l with
  | [] => none
  | c :: cs =>
    if allowed c then (lazyFind allowed stop cs).map (fun p => (c :: p.1, p.2.1, p.2.2))
    else none

/-- Fueled engine of re.sub with a function replacement: at each position try
the match parser; on failure move one character right; on success emit the
replacement and resume after the match.  Fuel is the input length; every
pattern of the source consumes at least one character per match, so the
guard rest.length ≤ cs.length always holds and the fuel never runs out. -/
def subScanF (f : List Char → Option (List Char × List Char)) :
    Nat → List Char → List Char
  | _, [] => []
  | 0, l => l
  | Nat.succ n, c :: cs =>
    match f (c :: cs) with
    | some (out, rest) =>
      if rest.length ≤ cs.length then out ++ subScanF f n rest else out ++ rest
    | none => c :: subScanF f n cs

/-- re.sub with a function replacement. -/
def subScan (f : List Char → Option (List Char × List Char)) (l : List Char) :
    List Char := subScanF f l.length l

/-- Does the match parser succeed at any position (re.search succeeds)? -/
def scanHas (f : List Char → Option α) : List Char → Bool
  | [] => false
  | c :: cs => (f (c :: cs)).isSome || scanHas f cs

/-- Fueled engine of re.findall for a group-capturing match parser. -/
def findAllF (f : List Char → Option (γ × List Char)) : Nat → List Char → List γ
  | _, [] => []
  | 0, _ => []
  | Nat.succ n, c :: cs =>
    match f (c :: cs) with
    | some (g, rest) =>
      if rest.length ≤ cs.length then g :: findAllF f n rest else [g]
    | none => findAllF f n cs

/-- re.findall. -/
def findAllScan (f : List Char → Option (γ × List Char)) (l : List Char) : List γ :=
  findAllF f l.length l

/-- re.search returning the first match's groups. -/
def searchScan (f : List Char → Option (γ × List Char)) : List Char → Option γ
  | [] => none
  | c :: cs =>
    match f (c :: cs) with
    | some (g, _) => some g
    | none => searchScan f cs

/-- Split a character list at every occurrence of a separator character. -/
def splitOnChar (sep : Char) : List Char → List (List Char)
  | [] => [[]]
  | c :: cs =>
    if c = sep then [] :: splitOnChar sep cs
    else
      match splitOnChar sep cs with
      | [] => [[c]]
      | t :: ts => (c :: t) :: ts

/-- Lines of a character list, splitting at newline characters. -/
def splitNl (l : List Char) : List (List Char) := splitOnChar '\n' l

/-- Rejoin lines with newline characters (inverse of splitNl). -/
def joinNl : List (List Char) → List Char
  | [] => []
  | [x] => x
  | x :: xs => x ++ '\n' :: joinNl xs

/-- Models Python str.splitlines (the \n, \r\n and \r terminators). -/
def pySplitlinesGo : List Char → List Char → List String
  | [], acc => if acc.isEmpty then [] else [String.mk acc.reverse]
  | '\r' :: '\n' :: rest, acc => String.mk acc.reverse :: pySplitlinesGo rest []
  | '\r' :: rest, acc => String.mk acc.reverse :: pySplitlinesGo rest []
  | '\n' :: rest, acc => String.mk acc.reverse :: pySplitlinesGo rest []
  | c :: rest, acc => pySplitlinesGo rest (c :: acc)

/-- Python str.splitlines. -/
def pySplitlines (s : String) : List String := pySplitlinesGo s.data []

/-- Python str.strip() (whitespace at both ends). -/
def pyStrip (s : String) : String :=
  String.mk (((s.data.dropWhile pyWs).reverse.dropWhile pyWs).reverse)

/-- Python s.rstrip(c) / s.strip(c) building blocks: strip one character at
the right end. -/
def rstripChar (c : Char) (s : String) : String :=
  String.mk ((s.data.reverse.dropWhile (fun a => a = c)).reverse)

/-- Python s.strip(c): strip one character at both ends. -/
def stripChar (c : Char) (s : String) : String :=
  String.mk (((s.data.dropWhile (fun a => a = c)).reverse.dropWhile (fun a => a = c)).reverse)

/-- Numeric value of a digit run (Python int on a \d+ group). -/
def digitsVal (l : List Char) : Nat :=
  l.foldl (fun acc c => 10 * acc + (c.toNat - 48)) 0

/-- Python list slice l[:b] (negative bounds count from the right). -/
def pySliceTo (l : List α) (b : Int) : List α :=
  if b < 0 then l.take (l.length - (-b).toNat) else l.take b.toNat

/-- Python list slice l[a:b] for arbitrary integer bounds. -/
def pySlice (l : List α) (a b : Int) : List α :=
  let n := l.length
  let norm : Int → Nat := fun i => if i < 0 then n - (-i).toNat else min i.toNat n
  (l.take (norm b)).drop (norm a)

/-- Python s.replace with a one-character needle and a two-character
replacement, as used by the cache-key sanitizer. -/
def replaceChar2 (c : Char) (r1 r2 : Char) (s : String) : String :=
  String.mk (s.data.foldr (fun a acc => if a = c then r1 :: r2 :: acc else a :: acc) [])

/-- Concatenation of the images of a list-valued map (a Python inner loop
appending to an outer list). -/
def catMap (f : α → List β) (l : List α) : List β := (l.map f).flatten

-- ===== external collaborators =====

/-- An HTTP response: requests' resp.ok flag and resp.text body. -/
structure Resp where
  ok : Bool
  text : String
deriving DecidableEq

/-- One entry of the GitHub tree listing (the two keys the source reads). -/
structure TreeItem where
  type : String
  path : String
deriving DecidableEq

/-- A byte-pair tokenizer (GPT-2 in read_repo.py, cl100k_base in format.py),
kept abstract: encode to token ids and decode back. -/
structure Tokenizer where
  encode : String → List Nat
  decode : List Nat → String

/-- The effect environment: the network oracle (none models a raised
transport exception, some a response), the parsed JSON of the tree-listing
body (none models a json/attribute error), the module-level GPT-2 tokenizer
of read_repo.py, and format.py's optional tiktoken encoder. -/
structure Env where
  net : String → Option Resp
  treeJson : String → Option (List TreeItem)
  tok : Tokenizer
  tiktoken : Option Tokenizer

/-- Python exceptions that can escape the embedded code. -/
inductive PyErr where
  | connectionError
  | jsonError
  | typeError
deriving DecidableEq

/-- The dynamically typed token_budget argument: the uncached path passes an
int, cached_aggregate_markdown passes the code_repo string positionally. -/
inductive PyBudget where
  | int (n : Int)
  | str (s : String)

-- ===== literal fragments of the source's regex patterns =====

def fenceLit : List Char := "```".data
def mermaidLit : List Char := "mermaid".data
def graphLit : List Char := "graph".data
def lrLit : List Char := "LR".data
def clickLit : List Char := "click".data
def hrefLit : List Char := "href".data
def quoteLit : List Char := "\"".data
def nodeOpenLit : List Char := "[\"".data
def nodeCloseLit : List Char := "\"]".data
def dashDashLit : List Char := "--".data
def arrowLit : List Char := "-->".data
def aHrefLit : List Char := "<a href=\"https://github.com/".data
def blobLit : List Char := "blob/".data
def lLit : List Char := "L".data
def dashLLit : List Char := "-L".data
def gtBtLit : List Char := (r">" ++ String.mk [btChar]).data
def btSpParenLit : List Char := (String.mk [btChar] ++ r" (").data
def colonLit : List Char := ":".data
def closeATagLit : List Char := ")</a>".data
def dashLit : List Char := "-".data
def openParenLit : List Char := "(".data
def closeParenLit : List Char := ")".data
def linesLit : List Char := "lines".data
def badgeOpenLit : List Char := "[![".data
def badgeMidLit : List Char := "](".data
def badgeCloseMidLit : List Char := ")](".data
def faqMarker : List Char := "### [FAQ]".data
def githubUrlLit : List Char := "https://github.com/".data
def nlStr : String := "\n"
def nl2Str : String := "\n\n"
def emptyStr : String := ""

-- ===== format.py =====

/-- Groups captured by format.py's inline <a href> blob-link pattern. -/
structure LinkG where
  owner : String
  repo : String
  branch : String
  path : String
  startL : Nat
  endL : Nat
  symbol : String

/-- One segment [^X]+ followed by the literal X. -/
def segTo (stop : Char) (l : List Char) : Option (List Char × List Char) := do
  let (seg, r) ← takeWhile1 (fun c => c ≠ stop) l
  let r2 ← expects [stop] r
  pure (seg, r2)

/-- First stage of the <a href> pattern:
<a href="https://github.com/(owner)/(repo)/blob/(branch)/(path)#. -/
def parseLinkUrl (l : List Char) :
    Option ((List Char × List Char × List Char × List Char) × List Char) := do
  let r0 ← expects aHrefLit l
  let (owner, r1) ← segTo '/' r0
  let (repo, r2) ← segTo '/' r1
  let r3 ← expects blobLit r2
  let (branch, r4) ← segTo '/' r3
  let (path, r5) ← segTo '#' r4
  pure ((owner, repo, branch, path), r5)

/-- Second stage of the <a href> pattern: L(\d+)-L(\d+)". -/
def parseLinkNums (l : List Char) : Option ((List Char × List Char) × List Char) := do
  let r6 ← expects lLit l
  let (d1, r7) ← takeWhile1 Char.isDigit r6
  let r8 ← expects dashLLit r7
  let (d2, r9) ← takeWhile1 Char.isDigit r8
  let r10 ← expects quoteLit r9
  pure ((d1, d2), r10)

/-- Last stage of the <a href> pattern: [^>]*>`(symbol)` \(\d+:\d+\)</a>. -/
def parseLinkTail (l : List Char) : Option (List Char × List Char) := do
  let r12 ← expects gtBtLit (l.dropWhile (fun c => c ≠ '>'))
  let (sym, r13) ← takeWhile1 (fun c => c ≠ btChar) r12
  let r14 ← expects btSpParenLit r13
  let (_, r15) ← takeWhile1 Char.isDigit r14
  let r16 ← expects colonLit r15
  let (_, r17) ← takeWhile1 Char.isDigit r16
  let r18 ← expects closeATagLit r17
  pure (sym, r18)

/-- Match parser of format.py's <a href="..."> pattern at one position.
Every quantified piece is a character class followed by a literal outside
that class, so Python's backtracking is the deterministic longest-run scan
implemented by the three stages. -/
def parseLinkAt (l : List Char) : Option (LinkG × List Char) := do
  let (u, r5) ← parseLinkUrl l
  let (d, r10) ← parseLinkNums r5
  let (sym, r18) ← parseLinkTail r10
  pure (⟨String.mk u.1, String.mk u.2.1, String.mk u.2.2.1, String.mk u.2.2.2,
         digitsVal d.1, digitsVal d.2, String.mk sym⟩, r18)

/-- The replacement function of format_github_html_links_to_plaintext:
plaintext reference, plus the optionally fetched fenced snippet and token
count when inline_code is set; any fetch error degrades to the plain line. -/
def linkReplacer (net : String → Option Resp) (tik : Option Tokenizer)
    (inline_code : Bool) (g : LinkG) : String :=
  let base_text :=
    g.symbol ++ " (" ++ g.path ++ ": lines " ++ toString g.startL ++ "–" ++
      toString g.endL ++ ")"
  if !inline_code then base_text
  else
    let raw_url :=
      "https://raw.githubusercontent.com/" ++ g.owner ++ "/" ++ g.repo ++ "/" ++
        g.branch ++ "/" ++ g.path
    let snippet : Option String :=
      match net raw_url with
      | none => none
      | some resp =>
        if resp.ok then
          some (String.intercalate nlStr
            (pySlice (pySplitlines resp.text) ((g.startL : Int) - 1) (g.endL : Int)))
        else none
    match snippet with
    | none => base_text
    | some snip =>
      if snip = "" then base_text
      else
        let token_info :=
          match tik with
          | some t => "\n[Token count: " ++ toString (t.encode snip).length ++ "]"
          | none => ""
        base_text ++ "\n" ++ String.mk fenceLit ++ "python\n" ++ snip ++ "\n" ++
          String.mk fenceLit ++ token_info

/-- format.py format_github_html_links_to_plaintext. -/
def format_github_html_links_to_plaintext (net : String → Option Resp)
    (tik : Option Tokenizer) (markdown : String) (inline_code : Bool) : String :=
  String.mk (subScan
    (fun l => (parseLinkAt l).map
      (fun p => ((linkReplacer net tik inline_code p.1).data, p.2)))
    markdown.data)

/-- Match parser of the node pattern (\w+)\["(.+?)"\] at one position. -/
def parseNodeAt (l : List Char) : Option ((String × String) × List Char) := do
  let (idChars, r1) ← takeWhile1 isWordChar l
  let r2 ← expects nodeOpenLit r1
  let res ← lazyFind1 (fun c => c ≠ '\n')
    (fun t => (expects nodeCloseLit t).map (fun r => ((), r))) r2
  pure ((String.mk idChars, String.mk res.1), res.2.2)

/-- Continuation of the edge pattern after the label: "\s+-->\s+(\w+). -/
def edgeStop (l : List Char) : Option (String × List Char) := do
  let r1 ← expects quoteLit l
  let (_, r2) ← takeWhile1 pyWs r1
  let r3 ← expects arrowLit r2
  let (_, r4) ← takeWhile1 pyWs r3
  let (dst, r5) ← takeWhile1 isWordChar r4
  pure (String.mk dst, r5)

/-- Match parser of the edge pattern (\w+)\s+--\s+"(.+?)"\s+-->\s+(\w+);
returns (source, label, destination). -/
def parseEdgeAt (l : List Char) : Option ((String × String × String) × List Char) := do
  let (src, r1) ← takeWhile1 isWordChar l
  let (_, r2) ← takeWhile1 pyWs r1
  let r3 ← expects dashDashLit r2
  let (_, r4) ← takeWhile1 pyWs r3
  let r5 ← expects quoteLit r4
  let res ← lazyFind1 (fun c => c ≠ '\n') edgeStop r5
  pure ((String.mk src, String.mk res.1, res.2.1), res.2.2)

/-- Python dict insertion: overwrite in place, else append. -/
def dictInsert (m : List (String × String)) (k v : String) : List (String × String) :=
  if m.any (fun p => p.1 == k) then m.map (fun p => if p.1 == k then (k, v) else p)
  else m ++ [(k, v)]

/-- Python dict(pairs): first-insertion order, later values overwrite. -/
def dictOf (ps : List (String × String)) : List (String × String) :=
  ps.foldl (fun m p => dictInsert m p.1 p.2) []

/-- Python dict.get(k, dflt). -/
def dictGet (m : List (String × String)) (k dflt : String) : String :=
  match m.find? (fun p => p.1 == k) with
  | some p => p.2
  | none => dflt

/-- The defaultdict forward[src] of the summarizer: (label, dst) pairs of the
edges leaving src, in edge order. -/
def forwardEdges (edges : List (String × String × String)) (src : String) :
    List (String × String) :=
  edges.filterMap (fun e => if e.1 == src then some (e.2.1, e.2.2) else none)

/-- The defaultdict reverse[dst]: (label, src) pairs of the edges entering
dst, in edge order. -/
def reverseEdges (edges : List (String × String × String)) (dst : String) :
    List (String × String) :=
  edges.filterMap (fun e => if e.2.2 == dst then some (e.2.1, e.1) else none)

/-- The per-node bullet lines of format_mermaid_to_llm_markdown_no_links,
including the guarded reciprocal "label by:" entries. -/
def nodeBullets (nodes : List (String × String))
    (edges : List (String × String × String)) (key name : String) : List String :=
  (r"- " ++ name) ::
    (catMap (fun p => [r"  " ++ p.1 ++ r":", r"  - " ++ dictGet nodes p.2 p.2])
        (forwardEdges edges key) ++
      catMap (fun p =>
          if ((forwardEdges edges p.2).map (fun q => q.2)).contains key then []
          else [r"  " ++ p.1 ++ r" by:", r"  - " ++ dictGet nodes p.2 p.2])
        (reverseEdges edges key) ++
      [""])

/-- format.py format_mermaid_to_llm_markdown_no_links. -/
def format_mermaid_to_llm_markdown_no_links (mermaid_str : String) : String :=
  let nodes := dictOf (findAllScan parseNodeAt mermaid_str.data)
  let edges := findAllScan parseEdgeAt mermaid_str.data
  String.intercalate nlStr
    ([r"**Core Components:**", r""] ++ catMap (fun p => nodeBullets nodes edges p.1 p.2) nodes)

/-- The per-node bullet lines with the reciprocal branch removed (the
comparison point of claim C10: that branch is unreachable). -/
def nodeBulletsNoReciprocal (nodes : List (String × String))
    (edges : List (String × String × String)) (key name : String) : List String :=
  (r"- " ++ name) ::
    (catMap (fun p => [r"  " ++ p.1 ++ r":", r"  - " ++ dictGet nodes p.2 p.2])
        (forwardEdges edges key) ++
      [""])

/-- The summarizer with the reciprocal "label by:" branch removed. -/
def format_mermaid_no_reciprocal (mermaid_str : String) : String :=
  let nodes := dictOf (findAllScan parseNodeAt mermaid_str.data)
  let edges := findAllScan parseEdgeAt mermaid_str.data
  String.intercalate nlStr
    ([r"**Core Components:**", r""] ++
      catMap (fun p => nodeBulletsNoReciprocal nodes edges p.1 p.2) nodes)

/-- Does a line match ^\s*graph\s+LR.*$ in full? -/
def isGraphLRLine (line : List Char) : Bool :=
  match expects graphLit (line.dropWhile pyWs) with
  | none => false
  | some r1 =>
    match takeWhile1 pyWs r1 with
    | none => false
    | some (_, r2) => leadsWith lrLit r2

/-- The MULTILINE substitution removing graph LR lines: each matching line's
content is replaced by the empty string (the newline survives).  The
embedding applies the pattern line-locally; a \s* run crossing a line
boundary is not folded into the match. -/
def removeGraphLR (s : String) : String :=
  String.mk (joinNl ((splitNl s.data).map (fun line => if isGraphLRLine line then [] else line)))

/-- First half of the click-line pattern: \s*click\s+\w+\s+href\s+. -/
def clickHead (line : List Char) : Option (List Char) := do
  let r1 ← expects clickLit (line.dropWhile pyWs)
  let (_, r2) ← takeWhile1 pyWs r1
  let (_, r3) ← takeWhile1 isWordChar r2
  let (_, r4) ← takeWhile1 pyWs r3
  let r5 ← expects hrefLit r4
  let (_, r6) ← takeWhile1 pyWs r5
  pure r6

/-- Prefix match of ^\s*click\s+\w+\s+href\s+"[^"]+"\s+"[^"]+" on one line,
returning the unmatched rest of the line. -/
def clickPrefix (line : List Char) : Option (List Char) := do
  let r6 ← clickHead line
  let r7 ← expects quoteLit r6
  let (_, r8) ← takeWhile1 (fun c => c ≠ '"') r7
  let r9 ← expects quoteLit r8
  let (_, r10) ← takeWhile1 pyWs r9
  let r11 ← expects quoteLit r10
  let (_, r12) ← takeWhile1 (fun c => c ≠ '"') r11
  expects quoteLit r12

/-- The MULTILINE substitution removing click ... href "..." "..." prefixes,
applied line-locally as for removeGraphLR. -/
def removeClickLines (s : String) : String :=
  String.mk (joinNl ((splitNl s.data).map
    (fun line => match clickPrefix line with
      | some rest => rest
      | none => line)))

/-- The convert_mermaid inner function of replace_mermaid_blocks: strip
graph LR and click lines, then summarize. -/
def convert_mermaid (code : List Char) : String :=
  format_mermaid_to_llm_markdown_no_links (removeClickLines (removeGraphLR (String.mk code)))

/-- Match parser of the fenced-block pattern ```mermaid\s*\n(.*?)``` with
DOTALL and IGNORECASE: after the fence word, the greedy \s* followed by \n
consumes the whitespace run up to and including its last newline (the
longest split accepted by backtracking), then the lazy body runs to the
first closing fence. -/
def parseMermaidAt (l : List Char) : Option (List Char × List Char) := do
  let r1 ← expects fenceLit l
  let r2 ← expectsCI mermaidLit r1
  let run := r2.takeWhile pyWs
  if run.contains '\n' then
    let tailWs := (run.reverse.takeWhile (fun c => c ≠ '\n')).reverse
    let r3 := tailWs ++ r2.dropWhile pyWs
    let res ← lazyFind (fun _ => true)
      (fun t => (expects fenceLit t).map (fun r => ((), r))) r3
    pure (res.1, res.2.2)
  else none

/-- format.py replace_mermaid_blocks. -/
def replace_mermaid_blocks (markdown : String) : String :=
  String.mk (subScan
    (fun l => (parseMermaidAt l).map (fun p => ((convert_mermaid p.1).data, p.2)))
    markdown.data)

-- ===== read_repo.py =====

/-- The GitHub tree-listing URL of aggregate_markdown. -/
def tree_url (docs_repo : String) : String :=
  "https://api.github.com/repos/" ++ docs_repo ++ "/git/trees/main?recursive=1"

/-- The raw-content URL of one markdown file. -/
def raw_md_url (docs_repo md_path : String) : String :=
  "https://raw.githubusercontent.com/" ++ docs_repo ++ "/main/" ++ md_path

/-- Groups of read_repo.py's LINK_PATTERN. -/
structure BlobG where
  owner : String
  repo : String
  branch : String
  path : String
  startL : Nat
  endL : Nat

/-- URL stage of LINK_PATTERN:
https://github.com/([^/]+)/([^/]+)/blob/([^/]+)/([^#]+)#. -/
def parseBlobUrl (l : List Char) :
    Option ((List Char × List Char × List Char × List Char) × List Char) := do
  let r0 ← expects githubUrlLit l
  let (owner, r1) ← segTo '/' r0
  let (repo, r2) ← segTo '/' r1
  let r3 ← expects blobLit r2
  let (branch, r4) ← segTo '/' r3
  let (path, r5) ← segTo '#' r4
  pure ((owner, repo, branch, path), r5)

/-- Match parser of LINK_PATTERN at one position (its tail L(\d+)-L(\d+)
ends the pattern). -/
def parseBlobAt (l : List Char) : Option (BlobG × List Char) := do
  let (u, r5) ← parseBlobUrl l
  let r6 ← expects lLit r5
  let (d1, r7) ← takeWhile1 Char.isDigit r6
  let r8 ← expects dashLLit r7
  let (d2, r9) ← takeWhile1 Char.isDigit r8
  pure (⟨String.mk u.1, String.mk u.2.1, String.mk u.2.2.1, String.mk u.2.2.2,
         digitsVal d1, digitsVal d2⟩, r9)

/-- read_repo.py extract_code_from_github_url: search the link for
LINK_PATTERN, fetch the raw file, and slice lines
[max(0, start-1) : min(len(lines), end)]; every failure yields "". -/
def extract_code_from_github_url (env : Env) (link : String) : String :=
  match searchScan parseBlobAt link.data with
  | none => ""
  | some g =>
    let raw_url :=
      "https://raw.githubusercontent.com/" ++ g.owner ++ "/" ++ g.repo ++ "/" ++
        g.branch ++ "/" ++ g.path
    match env.net raw_url with
    | none => ""
    | some resp =>
      if resp.ok then
        let lns := pySplitlines resp.text
        String.intercalate nlStr ((lns.take (min lns.length g.endL)).drop (g.startL - 1))
      else ""

/-- read_repo.py count_tokens (the module-level GPT-2 tokenizer). -/
def count_tokens (env : Env) (text : String) : Nat := (env.tok.encode text).length

/-- Captured groups of REF_PATTERN plus the whole matched text (group 0). -/
structure RefG where
  matched : List Char
  moduleRef : String
  filePath : String
  startS : String
  endS : String

/-- Head of REF_PATTERN: -\s*([A-Za-z0-9_.]+)\s*\(\s*([^:]+):.  The greedy
\s* runs are resolved in their own favor, which agrees with Python whenever
the following group is nonempty after the whitespace run. -/
def parseRefHead (l : List Char) : Option ((List Char × List Char) × List Char) := do
  let r1 ← expects dashLit l
  let (modChars, r3) ← takeWhile1 isRefNameChar (r1.dropWhile pyWs)
  let r5 ← expects openParenLit (r3.dropWhile pyWs)
  let (fileChars, r7) ← segTo ':' (r5.dropWhile pyWs)
  pure ((modChars, fileChars), r7)

/-- Tail of REF_PATTERN: \s*lines\s*(\d+)[–-](\d+)\s*\). -/
def parseRefTail (l : List Char) : Option ((List Char × List Char) × List Char) := do
  let r10 ← expects linesLit (l.dropWhile pyWs)
  let (d1, r12) ← takeWhile1 Char.isDigit (r10.dropWhile pyWs)
  let r13 ← (match r12 with
    | c :: cs => if c = '–' ∨ c = '-' then some cs else none
    | [] => none)
  let (d2, r14) ← takeWhile1 Char.isDigit r13
  let r16 ← expects closeParenLit (r14.dropWhile pyWs)
  pure ((d1, d2), r16)

/-- Match parser of REF_PATTERN at one position, also recording group 0. -/
def parseRefAt (l : List Char) : Option (RefG × List Char) := do
  let (mf, r7) ← parseRefHead l
  let (ds, r16) ← parseRefTail r7
  pure (⟨l.take (l.length - r16.length), String.mk mf.1, String.mk mf.2,
         String.mk ds.1, String.mk ds.2⟩, r16)

/-- The annotate replacement of add_num_tokens_per_inline: rebuild a blob
link from the groups, fetch its snippet and append " [N tokens]" to the
matched line. -/
def ref_annotate (env : Env) (code_repo : String) (g : RefG) : List Char :=
  let link :=
    "https://github.com/" ++ code_repo ++ "/blob/master/" ++ g.filePath ++ "#L" ++
      g.startS ++ "-L" ++ g.endS
  let snippet := extract_code_from_github_url env link
  let tok_count := if snippet ≠ "" then count_tokens env snippet else 0
  g.matched ++ (r" [" ++ toString tok_count ++ r" tokens]").data

/-- read_repo.py add_num_tokens_per_inline. -/
def add_num_tokens_per_inline (env : Env) (code_repo : String) (combined_md : String) :
    String :=
  String.mk (subScan
    (fun l => (parseRefAt l).map (fun p => (ref_annotate env code_repo p.1, p.2)))
    combined_md.data)

/-- One badge unit \[!\[[^\]]+\]\([^)]+\)\]\([^)]+\)\s* of the badge-chain
pattern. -/
def badgeUnit (l : List Char) : Option (List Char) := do
  let r1 ← expects badgeOpenLit l
  let (_, r2) ← takeWhile1 (fun c => c ≠ ']') r1
  let r3 ← expects badgeMidLit r2
  let (_, r4) ← takeWhile1 (fun c => c ≠ ')') r3
  let r5 ← expects badgeCloseMidLit r4
  let (_, r6) ← takeWhile1 (fun c => c ≠ ')') r5
  let r7 ← expects closeParenLit r6
  pure (r7.dropWhile pyWs)

/-- Greedily consume further badge units ((...)+ of the badge pattern). -/
def badgeMore : Nat → List Char → List Char
  | 0, r => r
  | Nat.succ n, r =>
    match badgeUnit r with
    | some r2 => badgeMore n r2
    | none => r

/-- Match parser of the badge-chain pattern (replacement is empty). -/
def badgeTry (l : List Char) : Option (List Char × List Char) :=
  match badgeUnit l with
  | some r => some ([], badgeMore l.length r)
  | none => none

/-- The substitution re.sub of the badge-chain pattern with "". -/
def stripBadges (s : String) : String := String.mk (subScan badgeTry s.data)

/-- Match parser of the FAQ pattern ### \[FAQ\].* (no DOTALL: the dot stops
at a newline, so a match runs from the marker to the end of its line). -/
def faqTry (l : List Char) : Option (List Char × List Char) :=
  if leadsWith faqMarker l then
    some ([], (l.drop faqMarker.length).dropWhile (fun c => c ≠ '\n'))
  else none

/-- The substitution re.sub("### \[FAQ\].*", "", combined). -/
def stripFAQ (s : String) : String := String.mk (subScan faqTry s.data)

def blobTypeLit : String := "blob"
def mdExtLit : String := ".md"
def onBoardingLit : String := "on_boarding.md"
def onBoardingName : String := "on_boarding"

/-- The .md-under-prefix filter of aggregate_markdown step 1. -/
def mdFilter (tree : List TreeItem) (subdir : String) : List String :=
  (tree.filter (fun it =>
    it.type == blobTypeLit && strEnds it.path mdExtLit && strStarts it.path subdir)).map
    (fun it => it.path)

/-- Python 'on_boarding.md' in path. -/
def containsOnBoarding (path : String) : Bool := strContains path onBoardingLit

/-- Remove the first on_boarding match from the listing, returning it and
the remaining listing in order (the enumerate/pop/insert/break loop). -/
def popFirstOB : List String → Option (String × List String)
  | [] => none
  | x :: xs =>
    if containsOnBoarding x then some (x, xs)
    else (popFirstOB xs).map (fun p => (p.1, x :: p.2))

/-- The onboarding-prioritisation loop of aggregate_markdown step 2. -/
def prioritize (md_files : List String) : List String :=
  match popFirstOB md_files with
  | some p => p.1 :: p.2
  | none => md_files

/-- Python s.split('/')[-1]. -/
def lastComponent (s : String) : String :=
  ((splitOnChar '/' s.data).map String.mk).getLastD emptyStr

/-- Split at the last occurrence of a needle, keeping both sides. -/
def lastOccSplit (needle : List Char) : List Char → Option (List Char × List Char)
  | [] => none
  | c :: cs =>
    match lastOccSplit needle cs with
    | some p => some (c :: p.1, p.2)
    | none =>
      if leadsWith needle (c :: cs) then some ([], (c :: cs).drop needle.length)
      else none

/-- Python s.rsplit('.md', 1)[0]. -/
def rsplitMdFirst (s : String) : String :=
  match lastOccSplit mdExtLit.data s.data with
  | some p => String.mk p.1
  | none => s

/-- The component name md_path.split('/')[-1].rsplit('.md', 1)[0]. -/
def compOf (md_path : String) : String := rsplitMdFirst (lastComponent md_path)

/-- The project name subdir_prefix.rstrip('/').split('/')[-1]. -/
def repo_name_of (subdir : String) : String := lastComponent (rstripChar '/' subdir)

/-- The whole-document header of aggregate_markdown step 4. -/
def header_of (subdir : String) : String :=
  "\n\n# " ++ repo_name_of subdir ++ " Architecture Overview\n\n"

/-- The section built from one fetched response in aggregate_markdown's
per-file loop: mermaid pre-processing when inlining, the component or
whole-project header, and the reference-link conversion; a non-ok response
yields the failed-fetch placeholder section. -/
def section_of (env : Env) (inline_code : Bool) (md_path : String) (resp : Resp) :
    String :=
  if resp.ok then
    let content := if inline_code then replace_mermaid_blocks resp.text else resp.text
    let comp := compOf md_path
    let hdr :=
      if comp == onBoardingName then "## System Architecture of the Whole Project:"
      else "## System Architecture Overview of Component: " ++ comp ++ "\n\n"
    hdr ++ format_github_html_links_to_plaintext env.net env.tiktoken content inline_code
  else "\n\n# " ++ md_path ++ " (Failed fetch)\n\n"

/-- One iteration of the per-file loop: the raw fetch (which may raise)
followed by section building. -/
def fetch_section (env : Env) (docs_repo : String) (inline_code : Bool)
    (md_path : String) : Except PyErr String :=
  match env.net (raw_md_url docs_repo md_path) with
  | none => Except.error PyErr.connectionError
  | some resp => Except.ok (section_of env inline_code md_path resp)

/-- Total variant of fetch_section for theorem statements; the "" branch is
excluded by the fetch-success hypotheses of the theorems that use it. -/
def fetched_section (env : Env) (docs_repo : String) (inline_code : Bool)
    (md_path : String) : String :=
  match env.net (raw_md_url docs_repo md_path) with
  | none => ""
  | some resp => section_of env inline_code md_path resp

/-- Effectful map, the Python for-loop over fetched files. -/
def mapExcept (f : α → Except PyErr β) : List α → Except PyErr (List β)
  | [] => Except.ok []
  | x :: xs =>
    match f x with
    | Except.error e => Except.error e
    | Except.ok y =>
      match mapExcept f xs with
      | Except.error e => Except.error e
      | Except.ok ys => Except.ok (y :: ys)

/-- The parts list of aggregate_markdown: whole-document header followed by
the per-file sections in listing order. -/
def build_parts (env : Env) (docs_repo subdir : String) (inline_code : Bool)
    (files : List String) : Except PyErr (List String) :=
  match mapExcept (fetch_section env docs_repo inline_code) files with
  | Except.error e => Except.error e
  | Except.ok secs => Except.ok (header_of subdir :: secs)

/-- aggregate_markdown up to (and including) the FAQ/badge substitutions and
the token-count annotation pass: the combined document before truncation. -/
def combined_markdown (env : Env) (docs_repo subdir : String) (inline_code : Bool)
    (code_repo : String) : Except PyErr String :=
  match env.net (tree_url docs_repo) with
  | none => Except.error PyErr.connectionError
  | some resp =>
    match env.treeJson resp.text with
    | none => Except.error PyErr.jsonError
    | some tree =>
      match build_parts env docs_repo subdir inline_code
          (prioritize (mdFilter tree subdir)) with
      | Except.error e => Except.error e
      | Except.ok parts =>
        let combined := String.intercalate nl2Str parts
        let combined := stripBadges (stripFAQ combined)
        Except.ok
          (if inline_code then combined
           else add_num_tokens_per_inline env code_repo combined)

/-- read_repo.py aggregate_markdown.  The dynamically typed token_budget is
compared against the token count: comparing against a string raises
TypeError in Python 3, modelled by the error branch. -/
def aggregate_markdown (env : Env) (docs_repo subdir : String) (inline_code : Bool)
    (token_budget : PyBudget) (code_repoOpt : Option String) : Except PyErr String :=
  let code_repo := code_repoOpt.getD docs_repo
  match combined_markdown env docs_repo subdir inline_code code_repo with
  | Except.error e => Except.error e
  | Except.ok combined =>
    let all_tokens := env.tok.encode combined
    match token_budget with
    | PyBudget.str _ => Except.error PyErr.typeError
    | PyBudget.int n =>
      if (all_tokens.length : Int) > n then
        Except.ok (pyStrip (env.tok.decode (pySliceTo all_tokens n)))
      else Except.ok (pyStrip combined)

/-- The on-disk cache directory as a map from path to contents. -/
abbrev FS : Type := String → Option String

/-- The empty cache. -/
def emptyFS : FS := fun _ => none

/-- Writing one cache file. -/
def fsWrite (fs : FS) (path content : String) : FS :=
  fun p => if p = path then some content else fs p

/-- The '/' → '__' sanitizer of the cache key. -/
def sanitizeKey (s : String) : String := replaceChar2 '/' '_' '_' s

/-- The cache-file path of cached_aggregate_markdown. -/
def cache_file_of (docs_repo subdir code_repo : String) (inline_code : Bool) : String :=
  ".cache/" ++ sanitizeKey docs_repo ++ "__" ++ sanitizeKey (stripChar '/' subdir) ++
    "__" ++ sanitizeKey code_repo ++ "__" ++
    (if inline_code then "inline" else "raw") ++ ".md"

/-- read_repo.py cached_aggregate_markdown.  On a miss the source calls
aggregate_markdown(docs_repo, subdir_prefix, inline_code, code_repo) with
four positional arguments, so code_repo is bound to the token_budget
parameter (a string) and the code_repo parameter stays None. -/
def cached_aggregate_markdown (env : Env) (fs : FS) (docs_repo subdir : String)
    (inline_code : Bool) (code_repoOpt : Option String) : Except PyErr String × FS :=
  let code_repo := code_repoOpt.getD docs_repo
  let cache_file := cache_file_of docs_repo subdir code_repo inline_code
  match fs cache_file with
  | some content => (Except.ok content, fs)
  | none =>
    match aggregate_markdown env docs_repo subdir inline_code
        (PyBudget.str code_repo) none with
    | Except.error e => (Except.error e, fs)
    | Except.ok content => (Except.ok content, fsWrite fs cache_file content)

/-- read_repo.py get_markdown. -/
def get_markdown (env : Env) (fs : FS) (repo_name docs_repo : String)
    (inline_code cache : Bool) (token_budget : Int) (code_repoOpt : Option String) :
    Except PyErr String × FS :=
  let code_repo := code_repoOpt.getD docs_repo
  if cache then
    cached_aggregate_markdown env fs docs_repo repo_name inline_code (some code_repo)
  else
    (aggregate_markdown env docs_repo repo_name inline_code
      (PyBudget.int token_budget) (some code_repo), fs)

/-- The default docs repository of get_markdown. -/
def defaultDocsRepo : String := "CodeBoarding/GeneratedOnBoardings"

/-- tools/get_codebase_context.py get_context_with_code: both tool arguments
are passed positionally to get_markdown, so the tool's subdir_prefix
argument becomes docs_repo, with caching on. -/
def get_context_with_code_cached (env : Env) (fs : FS) (repo subdir_prefix : String) :
    Except PyErr String × FS :=
  get_markdown env fs repo subdir_prefix true true 10000 none

/-- tools/get_codebase_context.py get_context_without_code. -/
def get_context_without_code_cached (env : Env) (fs : FS) (repo subdir_prefix : String) :
    Except PyErr String × FS :=
  get_markdown env fs repo subdir_prefix false true 10000 none

/-- tools/get_context_with_code.py get_context_with_code (the token-budget
variant, uncached). -/
def get_context_with_code_budget (env : Env) (fs : FS) (repo_name : String)
    (token_budget : Int) : Except PyErr String × FS :=
  get_markdown env fs repo_name defaultDocsRepo true false token_budget none

/-- tools/get_context_without_code.py get_context_without_code. -/
def get_context_without_code_budget (env : Env) (fs : FS) (repo_name : String) :
    Except PyErr String × FS :=
  get_markdown env fs repo_name defaultDocsRepo false false 10000 none

-- ===== definitions supporting the claim statements =====

/-- A fenced mermaid block occurs in the input (the sub pattern matches at
some position). -/
def has_mermaid_block (s : String) : Bool := scanHas parseMermaidAt s.data

/-- A GitHub hyperlink of the recognized shape occurs in the input. -/
def has_github_link (s : String) : Bool := scanHas parseLinkAt s.data

/-- Every fetch on this network oracle fails: the request raises or the
response status is not ok. -/
def fetchFails (net : String → Option Resp) : Prop :=
  ∀ u r, net u = some r → r.ok = false

/-- Cut one line at the first occurrence of the FAQ marker, keeping the text
before it. -/
def cutAtMarker : List Char → List Char
  | [] => []
  | c :: cs => if leadsWith faqMarker (c :: cs) then [] else c :: cutAtMarker cs

/-- Line-local description of the FAQ substitution: every line is cut at its
first FAQ marker and the line structure is preserved. -/
def stripFAQLines (s : String) : String :=
  String.mk (joinNl ((splitNl s.data).map cutAtMarker))

-- further literals referenced by the theorem statements

def litOR : String := "o/r"
def litAslash : String := "A/"
def litA : String := "A"
def litB : String := "B"
def hashLit : String := "#"
def bySuffixLit : String := " by:"
def faqMarkerStr : String := "### [FAQ]"
def faqBodyLit : String := "A: because"
def xPath : String := "A/x.md"
def obPath : String := "A/on_boarding.md"
def fenceStr : String := "```"

/-- The whole-document header of the C4 parts list. -/
def partsHeadC4 : String := "\n\n# A Architecture Overview\n\n"

/-- The doc.md section of the C4 parts list. -/
def partsSectC4 : String :=
  "## System Architecture Overview of Component: doc\n\nIntro\n### [FAQ]\nQ: why?\nA: because"

/-- The parts list computed by envC4 (header plus the doc.md section). -/
def partsC4 : List String := [partsHeadC4, partsSectC4]


-- ===== concrete fixtures for witnesses and counterexamples =====

/-- A concrete character-level tokenizer standing in for the abstract BPE
tokenizer in concrete evaluations. -/
def charTok : Tokenizer :=
  ⟨fun s => s.data.map Char.toNat, fun l => String.mk (l.map Char.ofNat)⟩

/-- An environment whose network always answers ok with an empty body and
whose tree listing is empty. -/
def trivEnv : Env :=
  { net := fun _ => some ⟨true, emptyStr⟩, treeJson := fun _ => some [],
    tok := charTok, tiktoken := none }

/-- The combined document produced by trivEnv for docs repo o/r and
prefix A/. -/
def combinedC3 : String := "\n\n# A Architecture Overview\n\n"

/-- The markdown document of the C4 counterexample: an FAQ heading followed
by FAQ body lines. -/
def docC4 : String := "Intro\n### [FAQ]\nQ: why?\nA: because"

/-- The markdown path of the C4 counterexample. -/
def docPathC4 : String := "A/doc.md"

/-- The tree listing of the C4 counterexample. -/
def treeC4 : List TreeItem := [⟨r"blob", r"A/doc.md"⟩]

/-- Environment serving docC4 as the only markdown file of the A/ prefix. -/
def envC4 : Env :=
  { net := fun u => if u = raw_md_url litOR docPathC4 then some ⟨true, docC4⟩
      else some ⟨true, emptyStr⟩,
    treeJson := fun _ => some treeC4,
    tok := charTok, tiktoken := none }

/-- The aggregate computed by envC4: the FAQ heading line is gone but the
FAQ body lines survive. -/
def aggC4out : String :=
  "# A Architecture Overview\n\n\n\n## System Architecture Overview of Component: doc\n\nIntro\n\nQ: why?\nA: because"

/-- The tree listing of the C5 witness: the onboarding file listed second. -/
def treeC5 : List TreeItem := [⟨r"blob", r"A/x.md"⟩, ⟨r"blob", r"A/on_boarding.md"⟩]

/-- Environment serving "hello" for every fetch, with treeC5 as listing. -/
def envC5 : Env :=
  { net := fun _ => some ⟨true, r"hello"⟩,
    treeJson := fun _ => some treeC5,
    tok := charTok, tiktoken := none }

/-- The C7 diagram: nodes A and B and one edge A → B labeled calls. -/
def diagC7 : String := "A[\"A\"]\nB[\"B\"]\nA -- \"calls\" --> B"

/-- The summarizer output for diagC7. -/
def outC7 : String := "**Core Components:**\n\n- A\n  calls:\n  - B\n\n- B\n"

/-- The C8 reference link: path pkg/mod.py, lines 10-20, symbol foo. -/
def linkC8 : String :=
  "<a href=\"https://github.com/own/rep/blob/main/pkg/mod.py#L10-L20\">" ++
    String.mk [btChar] ++ "foo" ++ String.mk [btChar] ++ " (10:20)</a>"

/-- The plaintext replacement the converter produces for linkC8. -/
def outC8 : String := "foo (pkg/mod.py: lines 10–20)"

/-- A network oracle on which every request raises. -/
def netFailAll : String → Option Resp := fun _ => none

/-- A markdown string with neither a mermaid block nor link markup. -/
def plainMd : String := "hello world"

-- ===== theorems =====

-- § generic scanner lemmas

/-- Fuel invariance of the substitution engine: any sufficient fuel computes
the same result. -/
theorem subScanF_inv (f : List Char → Option (List Char × List Char)) :
    ∀ n m l, l.length ≤ n → l.length ≤ m → subScanF f n l = subScanF f m l := by
  intro n
  induction n with
  | zero =>
    intro m l hn _
    have : l = [] := List.eq_nil_of_length_eq_zero (Nat.le_zero.mp hn)
    subst this
    cases m <;> rfl
  | succ n ih =>
    intro m l hn hm
    cases l with
    | nil => cases m <;> rfl
    | cons c cs =>
      cases m with
      | zero => exact absurd hm (by simp)
      | succ m =>
        show (match f (c :: cs) with
          | some (out, rest) =>
            if rest.length ≤ cs.length then out ++ subScanF f n rest else out ++ rest
          | none => c :: subScanF f n cs) =
          (match f (c :: cs) with
          | some (out, rest) =>
            if rest.length ≤ cs.length then out ++ subScanF f m rest else out ++ rest
          | none => c :: subScanF f m cs)
        have hcs : cs.length ≤ n := by simpa using hn
        have hcs2 : cs.length ≤ m := by simpa using hm
        cases hf : f (c :: cs) with
        | none => simp [ih m cs hcs hcs2]
        | some p =>
          obtain ⟨out, rest⟩ := p
          by_cases hr : rest.length ≤ cs.length
          · simp [hr, ih m rest (le_trans hr hcs) (le_trans hr hcs2)]
          · simp [hr]

/-- One step of subScan when the pattern does not match at the head. -/
theorem subScan_cons_none (f : List Char → Option (List Char × List Char))
    (c : Char) (cs : List Char) (h : f (c :: cs) = none) :
    subScan f (c :: cs) = c :: subScan f cs := by
  show subScanF f (cs.length + 1) (c :: cs) = c :: subScanF f cs.length cs
  show (match f (c :: cs) with
    | some (out, rest) =>
      if rest.length ≤ cs.length then out ++ subScanF f cs.length rest
      else out ++ rest
    | none => c :: subScanF f cs.length cs) = c :: subScanF f cs.length cs
  rw [h]

/-- One step of subScan when the pattern matches at the head. -/
theorem subScan_cons_some (f : List Char → Option (List Char × List Char))
    (c : Char) (cs out rest : List Char) (h : f (c :: cs) = some (out, rest))
    (hl : rest.length ≤ cs.length) :
    subScan f (c :: cs) = out ++ subScan f rest := by
  show subScanF f (cs.length + 1) (c :: cs) = out ++ subScanF f rest.length rest
  show (match f (c :: cs) with
    | some (out, rest) =>
      if rest.length ≤ cs.length then out ++ subScanF f cs.length rest
      else out ++ rest
    | none => c :: subScanF f cs.length cs) = out ++ subScanF f rest.length rest
  rw [h]
  simp only [if_pos hl]
  rw [subScanF_inv f cs.length rest.length rest hl le_rfl]

/-- If the pattern matches nowhere, the substitution is the identity. -/
theorem subScan_id (f : List Char → Option (List Char × List Char)) :
    ∀ l, scanHas f l = false → subScan f l = l := by
  intro l
  induction l with
  | nil => intro _; rfl
  | cons c cs ih =>
    intro h
    have h2 : ((f (c :: cs)).isSome || scanHas f cs) = false := h
    have h3 := Bool.or_eq_false_iff.mp h2
    cases hf : f (c :: cs) with
    | none => rw [subScan_cons_none f c cs hf, ih h3.2]
    | some p => rw [hf] at h3; simp at h3

/-- scanHas only depends on where the parser succeeds. -/
theorem scanHas_congr (f : List Char → Option α) (g : List Char → Option β)
    (h : ∀ l, (f l).isSome = (g l).isSome) :
    ∀ l, scanHas f l = scanHas g l := by
  intro l
  induction l with
  | nil => rfl
  | cons c cs ih =>
    show ((f (c :: cs)).isSome || scanHas f cs) = ((g (c :: cs)).isSome || scanHas g cs)
    rw [h (c :: cs), ih]

-- § claims C1 and C2: the cached path raises TypeError on every miss

/-- C1.  The spec claims every entry-point invocation returns a best-effort
string and never raises.  The code slips: on a cache miss the cached entry
point ends with a TypeError, because cached_aggregate_markdown passes
code_repo positionally into aggregate_markdown's token_budget parameter and
the token count is then compared against a string. -/
theorem c1_entry_point_type_error :
    (get_context_with_code_cached trivEnv emptyFS litAslash litOR).1 =
      Except.error PyErr.typeError := rfl

/-- C2.  The spec claims the first cached call (on a miss) returns the
aggregate of section 4.2 and persists it.  Instead the first call raises
TypeError before anything is written: the result is an error and the cache
file is still absent afterwards. -/
theorem c2_cache_miss_type_error :
    (cached_aggregate_markdown trivEnv emptyFS litOR litAslash true (some litOR)).1 =
        Except.error PyErr.typeError ∧
      (cached_aggregate_markdown trivEnv emptyFS litOR litAslash true
          (some litOR)).2 (cache_file_of litOR litAslash litOR true) = none :=
  ⟨rfl, rfl⟩

-- § claim C3: truncation

/-- C3 counterexample.  At this input the combined document has 29 tokens
and the budget is 4; the returned aggregate is "#", not the decoding
"\n\n# " of the first 4 tokens (the code strips whitespace afterwards), and
re-tokenizing the output yields 1 token, not 4. -/
theorem c3_counterexample :
    combined_markdown trivEnv litOR litAslash true litOR = Except.ok combinedC3 ∧
      (4 : Int) < ((trivEnv.tok.encode combinedC3).length : Int) ∧
      aggregate_markdown trivEnv litOR litAslash true (PyBudget.int 4) none =
        Except.ok hashLit ∧
      hashLit ≠ trivEnv.tok.decode ((trivEnv.tok.encode combinedC3).take 4) ∧
      (trivEnv.tok.encode hashLit).length ≠ 4 :=
  ⟨rfl, by decide, rfl, by decide, by decide⟩

/-- Python l[:b] is List.take for a nonnegative bound. -/
theorem pySliceTo_nonneg (l : List α) (b : Int) (h : 0 ≤ b) :
    pySliceTo l b = l.take b.toNat := by
  unfold pySliceTo
  rw [if_neg (not_lt.mpr h)]

/-- C3 amended.  When the combined document exceeds a nonnegative
tokenBudget, the returned aggregate is the whitespace-stripped decoding of
exactly the first tokenBudget tokens of the combined document. -/
theorem c3_truncation_amended (env : Env) (docs subdir : String) (inline : Bool)
    (codeOpt : Option String) (n : Int) (c : String)
    (h1 : combined_markdown env docs subdir inline (codeOpt.getD docs) = Except.ok c)
    (h2 : 0 ≤ n) (h3 : n < ((env.tok.encode c).length : Int)) :
    aggregate_markdown env docs subdir inline (PyBudget.int n) codeOpt =
      Except.ok (pyStrip (env.tok.decode ((env.tok.encode c).take n.toNat))) := by
  unfold aggregate_markdown
  simp only [h1]
  rw [if_pos (show ((env.tok.encode c).length : Int) > n from h3),
    pySliceTo_nonneg _ _ h2]

/-- C3 amended, witness at the concrete counterexample input. -/
theorem c3_truncation_amended_witness :
    aggregate_markdown trivEnv litOR litAslash true (PyBudget.int 4) none =
      Except.ok (pyStrip (trivEnv.tok.decode
        ((trivEnv.tok.encode combinedC3).take (4 : Int).toNat))) :=
  c3_truncation_amended trivEnv litOR litAslash true none 4 combinedC3 rfl
    (by decide) (by decide)

-- § claim C7: single-edge summary

/-- C7.  For the diagram with nodes A, B and one edge A → B labeled calls,
the output lists A with sub-bullet "calls:" followed by B and an entry for
B; A does list an outgoing edge to B under the label (the condition of the
claim's "unless" clause), and accordingly no reciprocal "calls by:"
sub-bullet appears. -/
theorem c7_single_edge_summary :
    format_mermaid_to_llm_markdown_no_links diagC7 = outC7 ∧
      ((forwardEdges (findAllScan parseEdgeAt diagC7.data) litA).map
        (fun q => q.2)).contains litB = true ∧
      strContains outC7 bySuffixLit = false :=
  ⟨rfl, rfl, rfl⟩

-- § claim C8: plaintext conversion with embedding disabled

/-- C8.  With embedding disabled (for any network oracle and tokenizer) the
recognized link is replaced by exactly the plaintext line, which contains no
code fence. -/
theorem c8_reference_link_plaintext (net : String → Option Resp)
    (tik : Option Tokenizer) :
    format_github_html_links_to_plaintext net tik linkC8 false = outC8 ∧
      strContains outC8 fenceStr = false :=
  ⟨rfl, rfl⟩

-- § claim C6: identity on inputs without diagram or link markup

/-- C6.  If neither the fenced-mermaid pattern nor the link pattern matches
anywhere in the input, both formatter functions return the input unchanged
(for either embed flag). -/
theorem c6_formatter_identity (md : String)
    (h1 : has_mermaid_block md = false) (h2 : has_github_link md = false) :
    replace_mermaid_blocks md = md ∧
      ∀ (net : String → Option Resp) (tik : Option Tokenizer) (b : Bool),
        format_github_html_links_to_plaintext net tik md b = md := by
  constructor
  · show String.mk (subScan _ md.data) = md
    rw [subScan_id _ md.data]
    rw [scanHas_congr _ parseMermaidAt (fun l => by cases parseMermaidAt l <;> simp) md.data]
    exact h1
  · intro net tik b
    show String.mk (subScan _ md.data) = md
    rw [subScan_id _ md.data]
    rw [scanHas_congr _ parseLinkAt (fun l => by cases parseLinkAt l <;> simp) md.data]
    exact h2

/-- C6 witness: a plain string without markup is returned unchanged. -/
theorem c6_formatter_identity_witness :
    has_mermaid_block plainMd = false ∧ has_github_link plainMd = false ∧
      replace_mermaid_blocks plainMd = plainMd ∧
      format_github_html_links_to_plaintext netFailAll none plainMd true = plainMd :=
  ⟨by decide, by decide,
    (c6_formatter_identity plainMd (by decide) (by decide)).1,
    (c6_formatter_identity plainMd (by decide) (by decide)).2 netFailAll none true⟩

-- § claim C9: embedding enabled, fetch failing

/-- On a failing network the inline replacement equals the plaintext one. -/
theorem linkReplacer_fail (net : String → Option Resp) (tik : Option Tokenizer)
    (g : LinkG) (h : fetchFails net) :
    linkReplacer net tik true g = linkReplacer net tik false g := by
  unfold linkReplacer
  simp only [Bool.not_true, Bool.not_false, if_false, if_true]
  cases hn : net (r"https://raw.githubusercontent.com/" ++ g.owner ++ r"/" ++ g.repo ++
      r"/" ++ g.branch ++ r"/" ++ g.path) with
  | none => simp [hn]
  | some r => simp [hn, h _ r hn]

/-- C9.  When every fetch fails (raises or returns a non-ok status), the
converter with embedding enabled produces exactly the output of the
converter with embedding disabled: the plaintext line, no fenced block, and
no propagated error. -/
theorem c9_fetch_failure_degrades (net : String → Option Resp)
    (tik : Option Tokenizer) (md : String) (h : fetchFails net) :
    format_github_html_links_to_plaintext net tik md true =
      format_github_html_links_to_plaintext net tik md false := by
  unfold format_github_html_links_to_plaintext
  have hf : (fun l => (parseLinkAt l).map
        (fun p => ((linkReplacer net tik true p.1).data, p.2))) =
      (fun l => (parseLinkAt l).map
        (fun p => ((linkReplacer net tik false p.1).data, p.2))) := by
    funext l
    cases parseLinkAt l with
    | none => rfl
    | some p => simp [linkReplacer_fail net tik _ h]
  rw [hf]

/-- C9 witness: on the always-raising oracle the C8 link degrades to the
plaintext conversion. -/
theorem c9_fetch_failure_degrades_witness :
    fetchFails netFailAll ∧
      format_github_html_links_to_plaintext netFailAll none linkC8 true =
        format_github_html_links_to_plaintext netFailAll none linkC8 false :=
  ⟨fun _ _r h => Option.noConfusion h,
    c9_fetch_failure_degrades netFailAll none linkC8 (fun _ _r h => Option.noConfusion h)⟩

-- § claim C10: the reciprocal branch is unreachable

/-- List membership gives Boolean containment. -/
theorem contains_of_mem {α} [BEq α] [LawfulBEq α] {a : α} {l : List α}
    (h : a ∈ l) : l.contains a = true := by
  induction l with
  | nil => cases h
  | cons x xs ih =>
    show (a == x || xs.contains a) = true
    rcases List.mem_cons.mp h with h1 | h2
    · subst h1
      simp only [Bool.or_eq_true]
      exact Or.inl (by simp)
    · simp only [Bool.or_eq_true]
      exact Or.inr (ih h2)

/-- Every record of reverse[key] comes from an edge whose destination is
key, so key is among the outgoing destinations of its source. -/
theorem reverse_guard (edges : List (String × String × String)) (key : String) :
    ∀ p ∈ reverseEdges edges key,
      ((forwardEdges edges p.2).map (fun q => q.2)).contains key = true := by
  intro p hp
  unfold reverseEdges at hp
  rw [List.mem_filterMap] at hp
  obtain ⟨e, he, hfe⟩ := hp
  by_cases hb : (e.2.2 == key) = true
  · rw [if_pos hb] at hfe
    have hp2 : p = (e.2.1, e.1) := (Option.some_inj.mp hfe).symm
    subst hp2
    have hmem : (e.2.1, e.2.2) ∈ forwardEdges edges e.1 := by
      unfold forwardEdges
      rw [List.mem_filterMap]
      exact ⟨e, he, by simp⟩
    have hkey : e.2.2 = key := eq_of_beq hb
    have : key ∈ (forwardEdges edges e.1).map (fun q => q.2) := by
      rw [← hkey]
      exact List.mem_map.mpr ⟨(e.2.1, e.2.2), hmem, rfl⟩
    exact contains_of_mem this
  · rw [if_neg hb] at hfe
    cases hfe

/-- catMap of an everywhere-empty function is empty. -/
theorem catMap_nil {f : α → List β} : ∀ {l : List α}, (∀ x ∈ l, f x = []) →
    catMap f l = [] := by
  intro l
  induction l with
  | nil => intro _; rfl
  | cons x xs ih =>
    intro h
    show f x ++ catMap f xs = []
    rw [h x (by simp), ih (fun y hy => h y (by simp [hy]))]
    rfl

/-- The reciprocal loop of nodeBullets contributes no lines. -/
theorem reciprocal_bullets_nil (nodes : List (String × String))
    (edges : List (String × String × String)) (key : String) :
    catMap (fun p =>
        if ((forwardEdges edges p.2).map (fun q => q.2)).contains key then []
        else [r"  " ++ p.1 ++ r" by:", r"  - " ++ dictGet nodes p.2 p.2])
      (reverseEdges edges key) = [] :=
  catMap_nil (fun p hp => by rw [if_pos (reverse_guard edges key p hp)])

/-- The guarded reciprocal loop contributes nothing to any node's bullets. -/
theorem nodeBullets_eq (nodes : List (String × String))
    (edges : List (String × String × String)) (key name : String) :
    nodeBullets nodes edges key name = nodeBulletsNoReciprocal nodes edges key name := by
  unfold nodeBullets nodeBulletsNoReciprocal
  rw [reciprocal_bullets_nil nodes edges key]
  simp

/-- C10.  For every input the summarizer's output equals the output of the
variant without the reciprocal "label by:" branch: every incoming-edge
record is mirrored by the outgoing edge that generated it, so the guard of
the reciprocal entry is false at every edge and the branch is unreachable. -/
theorem c10_reciprocal_unreachable (s : String) :
    format_mermaid_to_llm_markdown_no_links s = format_mermaid_no_reciprocal s := by
  unfold format_mermaid_to_llm_markdown_no_links format_mermaid_no_reciprocal
  simp only [nodeBullets_eq]

-- § claim C5: onboarding section first

/-- The prioritisation loop moves the unique matching path to the front and
keeps the others in order. -/
theorem popFirstOB_spec (p : String) (post : List String) :
    ∀ pre, (∀ q ∈ pre, containsOnBoarding q = false) →
      containsOnBoarding p = true →
      popFirstOB (pre ++ p :: post) = some (p, pre ++ post) := by
  intro pre
  induction pre with
  | nil =>
    intro _ hp
    show popFirstOB (p :: post) = some (p, post)
    unfold popFirstOB
    rw [if_pos hp]
  | cons x xs ih =>
    intro hpre hp
    show popFirstOB (x :: (xs ++ p :: post)) = some (p, x :: (xs ++ post))
    unfold popFirstOB
    rw [if_neg (by simp [hpre x (by simp)])]
    rw [ih (fun q hq => hpre q (by simp [hq])) hp]
    rfl

/-- When every fetch succeeds, the per-file loop maps each file to its
section, in order. -/
theorem mapExcept_ok (env : Env) (docs : String) (inline : Bool) :
    ∀ files, (∀ q ∈ files, (env.net (raw_md_url docs q)).isSome = true) →
      mapExcept (fetch_section env docs inline) files =
        Except.ok (files.map (fetched_section env docs inline)) := by
  intro files
  induction files with
  | nil => intro _; rfl
  | cons x xs ih =>
    intro h
    obtain ⟨r, hr⟩ := Option.isSome_iff_exists.mp (h x (by simp))
    have hx : fetch_section env docs inline x = Except.ok (section_of env inline x r) := by
      unfold fetch_section
      rw [hr]
    have hx2 : fetched_section env docs inline x = section_of env inline x r := by
      unfold fetched_section
      rw [hr]
    simp only [mapExcept, List.map_cons]
    rw [hx, ih (fun q hq => h q (by simp [hq])), hx2]

/-- C5.  If the filtered listing contains exactly one path matching
on_boarding.md, the prioritized listing is that path followed by the others
in their original order, and (when every fetch succeeds) the parts of the
aggregate are the whole-document header, then the on_boarding section, then
the sections of the other files in listing order. -/
theorem c5_onboarding_first (env : Env) (docs subdir : String) (inline : Bool)
    (tree : List TreeItem) (pre post : List String) (p : String)
    (hfilter : mdFilter tree subdir = pre ++ p :: post)
    (hp : containsOnBoarding p = true)
    (hpre : ∀ q ∈ pre, containsOnBoarding q = false)
    (_hpost : ∀ q ∈ post, containsOnBoarding q = false)
    (hnet : ∀ q ∈ pre ++ p :: post, (env.net (raw_md_url docs q)).isSome = true) :
    prioritize (mdFilter tree subdir) = p :: (pre ++ post) ∧
      build_parts env docs subdir inline (prioritize (mdFilter tree subdir)) =
        Except.ok (header_of subdir ::
          (p :: (pre ++ post)).map (fetched_section env docs inline)) := by
  have hprio : prioritize (mdFilter tree subdir) = p :: (pre ++ post) := by
    rw [hfilter]
    unfold prioritize
    rw [popFirstOB_spec p post pre hpre hp]
  refine ⟨hprio, ?_⟩
  rw [hprio]
  unfold build_parts
  rw [mapExcept_ok env docs inline (p :: (pre ++ post))
    (fun q hq => hnet q (by
      rcases List.mem_cons.mp hq with h1 | h2
      · simp [h1]
      · rcases List.mem_append.mp h2 with h3 | h4
        · simp [h3]
        · simp [h4]))]

/-- C5 witness: with the onboarding file listed second, its section still
comes directly after the whole-document header. -/
theorem c5_onboarding_first_witness :
    prioritize (mdFilter treeC5 litAslash) = obPath :: ([xPath] ++ []) ∧
      build_parts envC5 litOR litAslash true (prioritize (mdFilter treeC5 litAslash)) =
        Except.ok (header_of litAslash ::
          (obPath :: ([xPath] ++ [])).map (fetched_section envC5 litOR true)) :=
  c5_onboarding_first envC5 litOR litAslash true treeC5 [xPath] [] obPath rfl
    (by decide) (by decide) (by decide) (by decide)

-- § claim C4: the FAQ substitution

/-- C4 counterexample.  The combined document of this run contains the FAQ
heading marker, yet the returned aggregate still contains the FAQ body text
that followed the marker: only the heading line was removed, not everything
up to the end of the document. -/
theorem c4_counterexample :
    build_parts envC4 litOR litAslash true
        (prioritize (mdFilter treeC4 litAslash)) = Except.ok partsC4 ∧
      strContains (String.intercalate nl2Str partsC4) faqMarkerStr = true ∧
      aggregate_markdown envC4 litOR litAslash true (PyBudget.int 9999) none =
        Except.ok aggC4out ∧
      strContains aggC4out faqBodyLit = true ∧
      strContains aggC4out faqMarkerStr = false :=
  ⟨rfl, by decide, rfl, by decide, by decide⟩

/-- Prefix tests ignore what follows a newline when neither the pattern nor
the scanned prefix contains one. -/
theorem leadsWith_append_nl (m r : List Char) :
    ∀ line : List Char, (∀ a ∈ m, a ≠ '\n') → (∀ a ∈ line, a ≠ '\n') →
      leadsWith m (line ++ '\n' :: r) = leadsWith m line := by
  induction m with
  | nil => intro line _ _; rfl
  | cons x ms ih =>
    intro line hm hline
    cases line with
    | nil =>
      show leadsWith (x :: ms) ('\n' :: r) = false
      simp [leadsWith, hm x (by simp)]
    | cons c ls =>
      show leadsWith (x :: ms) (c :: (ls ++ '\n' :: r)) = leadsWith (x :: ms) (c :: ls)
      simp only [leadsWith]
      rw [ih ls (fun a ha => hm a (by simp [ha])) (fun a ha => hline a (by simp [ha]))]

/-- A successful prefix test bounds the pattern length. -/
theorem leadsWith_le : ∀ (m l : List Char), leadsWith m l = true → m.length ≤ l.length := by
  intro m
  induction m with
  | nil => intro l _; simp
  | cons x ms ih =>
    intro l h
    cases l with
    | nil => cases h
    | cons c cs =>
      simp only [leadsWith, Bool.and_eq_true] at h
      simpa using ih cs h.2

/-- Dropping within the first part of an append. -/
theorem drop_append_le : ∀ (n : Nat) (l1 l2 : List α), n ≤ l1.length →
    (l1 ++ l2).drop n = l1.drop n ++ l2 := by
  intro n
  induction n with
  | zero => intro l1 l2 _; rfl
  | succ n ih =>
    intro l1 l2 h
    cases l1 with
    | nil => cases h
    | cons c cs => simpa using ih cs l2 (by simpa using h)

/-- dropWhile skips a fully satisfying first part of an append. -/
theorem dropWhile_append_all (p : Char → Bool) :
    ∀ (l1 l2 : List Char), (∀ a ∈ l1, p a = true) →
      (l1 ++ l2).dropWhile p = l2.dropWhile p := by
  intro l1
  induction l1 with
  | nil => intro l2 _; rfl
  | cons c cs ih =>
    intro l2 h
    show ((c :: (cs ++ l2)).dropWhile p) = l2.dropWhile p
    rw [List.dropWhile_cons, if_pos (h c (by simp))]
    exact ih l2 (fun a ha => h a (by simp [ha]))

/-- dropWhile empties a fully satisfying list. -/
theorem dropWhile_all (p : Char → Bool) :
    ∀ l : List Char, (∀ a ∈ l, p a = true) → l.dropWhile p = [] := by
  intro l
  induction l with
  | nil => intro _; rfl
  | cons c cs ih =>
    intro h
    rw [List.dropWhile_cons, if_pos (h c (by simp))]
    exact ih (fun a ha => h a (by simp [ha]))

/-- The FAQ marker never matches at a newline. -/
theorem leadsWith_marker_nl (r : List Char) : leadsWith faqMarker ('\n' :: r) = false := by
  rw [show faqMarker = '#' :: "## [FAQ]".data from by decide]
  simp [leadsWith]

/-- The FAQ pattern does not match at a newline. -/
theorem faqTry_nl (r : List Char) : faqTry ('\n' :: r) = none := by
  unfold faqTry
  rw [if_neg]
  simp [leadsWith_marker_nl r]

/-- There is no newline in the FAQ marker. -/
theorem faqMarker_noNl : ∀ a ∈ faqMarker, a ≠ '\n' := by decide

/-- Unfolding equation of cutAtMarker on a cons. -/
theorem cutAtMarker_cons (c : Char) (cs : List Char) :
    cutAtMarker (c :: cs) =
      if leadsWith faqMarker (c :: cs) then [] else c :: cutAtMarker cs := rfl

/-- faqTry fails where the marker is not a prefix. -/
theorem faqTry_neg {l : List Char} (h : ¬ leadsWith faqMarker l = true) :
    faqTry l = none := by
  unfold faqTry
  rw [if_neg h]

/-- The FAQ substitution acts line-locally: on a newline-free line followed
by a newline, it cuts the line at its marker and continues behind the
newline. -/
theorem faqScan_line (r : List Char) :
    ∀ line : List Char, (∀ a ∈ line, a ≠ '\n') →
      subScan faqTry (line ++ '\n' :: r) =
        cutAtMarker line ++ '\n' :: subScan faqTry r := by
  intro line
  induction line with
  | nil =>
    intro _
    show subScan faqTry ('\n' :: r) = '\n' :: subScan faqTry r
    rw [subScan_cons_none faqTry '\n' r (faqTry_nl r)]
  | cons c cs ih =>
    intro hline
    show subScan faqTry (c :: (cs ++ '\n' :: r)) = _
    by_cases hpref : leadsWith faqMarker (c :: cs) = true
    · have hpref2 : leadsWith faqMarker ((c :: cs) ++ '\n' :: r) = true := by
        rw [leadsWith_append_nl faqMarker r (c :: cs) faqMarker_noNl hline]
        exact hpref
      have h9 : faqMarker.length ≤ (c :: cs).length := leadsWith_le _ _ hpref
      have hdrop : (((c :: cs) ++ '\n' :: r).drop faqMarker.length).dropWhile
          (fun a => a ≠ '\n') = '\n' :: r := by
        rw [drop_append_le faqMarker.length (c :: cs) ('\n' :: r) h9]
        rw [dropWhile_append_all _ ((c :: cs).drop faqMarker.length) ('\n' :: r)
          (fun a ha => by
            simp only [decide_eq_true_eq]
            exact hline a (List.drop_subset faqMarker.length (c :: cs) ha))]
        rw [List.dropWhile_cons]
        simp
      have hreq : faqTry ((c :: cs) ++ '\n' :: r) = some ([], '\n' :: r) := by
        unfold faqTry
        rw [if_pos hpref2, hdrop]
      have hlen : ('\n' :: r).length ≤ (cs ++ '\n' :: r).length := by
        simp [List.length_append]
      rw [subScan_cons_some faqTry c (cs ++ '\n' :: r) [] ('\n' :: r) hreq hlen]
      rw [subScan_cons_none faqTry '\n' r (faqTry_nl r)]
      show '\n' :: subScan faqTry r = cutAtMarker (c :: cs) ++ '\n' :: subScan faqTry r
      rw [cutAtMarker_cons, if_pos hpref]
      rfl
    · have hno : faqTry (c :: (cs ++ '\n' :: r)) = none := by
        apply faqTry_neg
        rw [← List.cons_append,
          leadsWith_append_nl faqMarker r (c :: cs) faqMarker_noNl hline]
        exact hpref
      rw [subScan_cons_none faqTry c (cs ++ '\n' :: r) hno]
      rw [ih (fun a ha => hline a (by simp [ha]))]
      rw [cutAtMarker_cons, if_neg hpref]
      rfl

/-- On a newline-free input the FAQ substitution is exactly the line cut. -/
theorem faqScan_noNl : ∀ line : List Char, (∀ a ∈ line, a ≠ '\n') →
    subScan faqTry line = cutAtMarker line := by
  intro line
  induction line with
  | nil => intro _; rfl
  | cons c cs ih =>
    intro hline
    by_cases hpref : leadsWith faqMarker (c :: cs) = true
    · have hdrop : ((c :: cs).drop faqMarker.length).dropWhile
          (fun a => a ≠ '\n') = [] := by
        apply dropWhile_all
        intro a ha
        simp only [decide_eq_true_eq]
        exact hline a (List.drop_subset faqMarker.length (c :: cs) ha)
      have hreq : faqTry (c :: cs) = some ([], []) := by
        unfold faqTry
        rw [if_pos hpref, hdrop]
      rw [subScan_cons_some faqTry c cs [] [] hreq (by simp)]
      rw [cutAtMarker_cons, if_pos hpref]
      rfl
    · have hno : faqTry (c :: cs) = none := faqTry_neg hpref
      rw [subScan_cons_none faqTry c cs hno]
      rw [ih (fun a ha => hline a (by simp [ha]))]
      rw [cutAtMarker_cons, if_neg hpref]

/-- Decompose a list at its first newline. -/
theorem split_at_first_nl : ∀ l : List Char, '\n' ∈ l →
    ∃ line r, (∀ a ∈ line, a ≠ '\n') ∧ l = line ++ '\n' :: r := by
  intro l
  induction l with
  | nil => intro h; cases h
  | cons c cs ih =>
    intro h
    by_cases hc : c = '\n'
    · exact ⟨[], cs, by simp, by rw [hc]; rfl⟩
    · have hcs : '\n' ∈ cs := by
        rcases List.mem_cons.mp h with h1 | h2
        · exact absurd h1.symm hc
        · exact h2
      obtain ⟨line, r, hline, hl⟩ := ih hcs
      exact ⟨c :: line, r, by
        intro a ha
        rcases List.mem_cons.mp ha with h1 | h2
        · rw [h1]; exact hc
        · exact hline a h2, by rw [hl]; rfl⟩

/-- A newline-free list is one line. -/
theorem splitNl_noNl : ∀ l : List Char, (∀ a ∈ l, a ≠ '\n') → splitNl l = [l] := by
  intro l
  induction l with
  | nil => intro _; rfl
  | cons c cs ih =>
    intro h
    show splitOnChar '\n' (c :: cs) = [c :: cs]
    unfold splitOnChar
    rw [if_neg (h c (by simp))]
    have := ih (fun a ha => h a (by simp [ha]))
    rw [show splitOnChar '\n' cs = [cs] from this]

/-- Splitting an appended first line. -/
theorem splitNl_append (r : List Char) : ∀ line : List Char,
    (∀ a ∈ line, a ≠ '\n') → splitNl (line ++ '\n' :: r) = line :: splitNl r := by
  intro line
  induction line with
  | nil =>
    intro _
    show splitOnChar '\n' ('\n' :: r) = [] :: splitNl r
    unfold splitOnChar
    rw [if_pos rfl]
    rfl
  | cons c cs ih =>
    intro h
    show splitOnChar '\n' (c :: (cs ++ '\n' :: r)) = (c :: cs) :: splitNl r
    unfold splitOnChar
    rw [if_neg (h c (by simp))]
    rw [show splitOnChar '\n' (cs ++ '\n' :: r) = cs :: splitNl r from
      ih (fun a ha => h a (by simp [ha]))]

/-- splitNl never returns the empty list. -/
theorem splitNl_ne_nil : ∀ l : List Char, splitNl l ≠ [] := by
  intro l
  induction l with
  | nil => simp [splitNl, splitOnChar]
  | cons c cs ih =>
    show splitOnChar '\n' (c :: cs) ≠ []
    unfold splitOnChar
    by_cases hc : c = '\n'
    · rw [if_pos hc]; simp
    · rw [if_neg hc]
      cases hs : splitOnChar '\n' cs with
      | nil => exact absurd hs ih
      | cons t ts => simp

/-- joinNl of a cons with nonempty tail. -/
theorem joinNl_cons (x : List Char) (xs : List (List Char)) (h : xs ≠ []) :
    joinNl (x :: xs) = x ++ '\n' :: joinNl xs := by
  cases xs with
  | nil => exact absurd rfl h
  | cons y ys => rfl

/-- The FAQ substitution equals the per-line marker cut, at any sufficient
fuel bound. -/
theorem faqScan_lines : ∀ (n : Nat) (l : List Char), l.length ≤ n →
    subScan faqTry l = joinNl ((splitNl l).map cutAtMarker) := by
  intro n
  induction n with
  | zero =>
    intro l h
    have : l = [] := List.eq_nil_of_length_eq_zero (Nat.le_zero.mp h)
    subst this
    rfl
  | succ n ih =>
    intro l hl
    by_cases hnl : '\n' ∈ l
    · obtain ⟨line, r, hline, rfl⟩ := split_at_first_nl l hnl
      rw [faqScan_line r line hline, splitNl_append r line hline]
      rw [List.map_cons, joinNl_cons (cutAtMarker line) ((splitNl r).map cutAtMarker)
        (fun hmap => splitNl_ne_nil r (List.map_eq_nil_iff.mp hmap))]
      rw [ih r (by
        have := hl
        simp only [List.length_append, List.length_cons] at this
        omega)]
    · have hline : ∀ a ∈ l, a ≠ '\n' := fun a ha h => hnl (h ▸ ha)
      rw [faqScan_noNl l hline, splitNl_noNl l hline]
      rfl

/-- C4 amended.  For every combined document, the aggregation's FAQ
substitution removes, on each line containing the FAQ heading marker, the
text from the first marker to the end of that line; the following lines of
the document are preserved. -/
theorem c4_faq_line_strip_amended (s : String) : stripFAQ s = stripFAQLines s := by
  unfold stripFAQ stripFAQLines
  congr 1
  exact faqScan_lines s.data.length s.data le_rfl
